import Mathlib

/-!
Verification of the quiz question synthesis engine of the skoloKvizAI
repository against its natural-language specification.

The Python sources are shallowly embedded over `List Char` (named `Str`
below): every string operation used by the code (whitespace collapsing,
character-class deletion, regex word matching, `str.split`, `str.strip`,
`str.startswith`, `str.lower`, `str.title`, slicing) is given an
executable structural-recursive model, and each generator
(`RobustQuizGenerator`, `AIQuizGenerator`, `EnhancedAIQuizGenerator`) is
translated method by method inside a namespace of the same name.

Randomness (`random.choice`, `random.shuffle`) is injected as explicit
function parameters: a shuffle is an arbitrary function on lists,
constrained by a permutation hypothesis where a theorem needs it, and a
choice is an arbitrary index stream.  Python's `set()` iteration order
(used by `list(set(...))` deduplication) is likewise injected as a
reordering parameter.  The network call of the remote adapter is modelled
by a `RemoteResult` value handed to the embedded
`generate_with_openai`: the code issues exactly one request, so one value
describes the complete interaction.
-/

set_option maxRecDepth 20000

namespace SkoloKviz

/-- Texts are modelled as lists of characters, matching Python's
sequence-of-code-points view of `str`. -/
abbrev Str := List Char

/-- Code-point list of a Lean string literal. -/
def str (s : String) : Str := s.data

/-- Python `str.lower` restricted to the character ranges the repository
manipulates: ASCII letters and the Cyrillic block (`А`-`Я` maps down by
0x20, `Ѐ`-`Џ` maps down by 0x50). -/
def pyLowerC (c : Char) : Char :=
  if 0x41 ≤ c.toNat ∧ c.toNat ≤ 0x5A then Char.ofNat (c.toNat + 0x20)
  else if 0x410 ≤ c.toNat ∧ c.toNat ≤ 0x42F then Char.ofNat (c.toNat + 0x20)
  else if 0x400 ≤ c.toNat ∧ c.toNat ≤ 0x40F then Char.ofNat (c.toNat + 0x50)
  else c

/-- Python `str.upper` on the same character ranges, used by
`str.title` on single lowercase words. -/
def pyUpperC (c : Char) : Char :=
  if 0x61 ≤ c.toNat ∧ c.toNat ≤ 0x7A then Char.ofNat (c.toNat - 0x20)
  else if 0x430 ≤ c.toNat ∧ c.toNat ≤ 0x44F then Char.ofNat (c.toNat - 0x20)
  else if 0x450 ≤ c.toNat ∧ c.toNat ≤ 0x45F then Char.ofNat (c.toNat - 0x50)
  else c

/-- `text.lower()` on a whole text. -/
def lowerCL (l : Str) : Str := l.map pyLowerC

/-- `term.title()` for the single-word terms of the knowledge table:
first character uppercased, the rest lowercased. -/
def titleCL : Str → Str
  | [] => []
  | c :: cs => pyUpperC c :: cs.map pyLowerC

/-- Membership in the regex class `[А-Я]` (U+0410 to U+042F). -/
def isUpperCyr (c : Char) : Bool := 0x410 ≤ c.toNat && c.toNat ≤ 0x42F

/-- Membership in the regex class `[а-я]` (U+0430 to U+044F). -/
def isLowerCyr (c : Char) : Bool := 0x430 ≤ c.toNat && c.toNat ≤ 0x44F

/-- Python's regex `\w` on the relevant alphabets: ASCII alphanumerics,
underscore, and the Cyrillic block U+0400 to U+04FF. -/
def pyIsWordChar (c : Char) : Bool :=
  c.isAlphanum || c == '_' || (0x400 ≤ c.toNat && c.toNat ≤ 0x4FF)

/-- `re.sub(r'\s+', ' ', text)`: every maximal whitespace run becomes a
single space.  Fuel-driven recursion; `l.length` fuel always suffices
because every step consumes at least one character. -/
def collapseWsGo : Nat → Str → Str
  | 0, l => l
  | _ + 1, [] => []
  | fuel + 1, c :: cs =>
    if c.isWhitespace then ' ' :: collapseWsGo fuel (cs.dropWhile Char.isWhitespace)
    else c :: collapseWsGo fuel cs

def collapseWs (l : Str) : Str := collapseWsGo l.length l

/-- `re.sub(r'[ннина]+', '', text)`: the character class collapses to the
set {н, и, а}, and substituting runs by the empty string deletes every
occurrence of those three characters. -/
def isNIA (c : Char) : Bool := c == 'н' || c == 'и' || c == 'а'

def stripNIA (l : Str) : Str := l.filter (fun c => !isNIA c)

/-- Length of a match of `\d+\.\d+\.\d+` at the head of the text, if any.
Greedy maximal-munch agrees with the regex because each `\d+` is followed
by a non-digit in the pattern. -/
def secHead (l : Str) : Option Nat :=
  let d1 := l.takeWhile Char.isDigit
  if d1.isEmpty then none else
  match l.drop d1.length with
  | '.' :: r2 =>
    let d2 := r2.takeWhile Char.isDigit
    if d2.isEmpty then none else
    match r2.drop d2.length with
    | '.' :: r4 =>
      let d3 := r4.takeWhile Char.isDigit
      if d3.isEmpty then none else
      some (d1.length + 1 + d2.length + 1 + d3.length)
    | _ => none
  | _ => none

/-- `re.sub(r'\d+\.\d+\.\d+', '', text)`: delete section-number shapes,
scanning left to right. -/
def stripSecGo : Nat → Str → Str
  | 0, l => l
  | _ + 1, [] => []
  | fuel + 1, c :: cs =>
    match secHead (c :: cs) with
    | some n => stripSecGo fuel ((c :: cs).drop n)
    | none => c :: stripSecGo fuel cs

def stripSecNums (l : Str) : Str := stripSecGo l.length l

/-- Maximal runs of word characters of a text, in order.  A regex of the
shape `\bw₁w₂…\b` (all `wᵢ` word characters) matches the text iff some
maximal run equals the pattern, which is how the generators' word-bounded
patterns are interpreted below. -/
def wordRunsGo : Nat → Str → List Str
  | 0, _ => []
  | _ + 1, [] => []
  | fuel + 1, c :: cs =>
    if pyIsWordChar c then
      (c :: cs.takeWhile pyIsWordChar) :: wordRunsGo fuel (cs.dropWhile pyIsWordChar)
    else wordRunsGo fuel cs

def wordRuns (l : Str) : List Str := wordRunsGo l.length l

/-- `pattern.startswith` over code-point lists. -/
def startsWithCL : Str → Str → Bool
  | [], _ => true
  | _ :: _, [] => false
  | a :: as, b :: bs => a == b && startsWithCL as bs

/-- Python `sep in text` (plain substring containment). -/
def containsCL (pat l : Str) : Bool :=
  (List.range (l.length + 1)).any fun i => startsWithCL pat (l.drop i)

/-- `text.split(sep)` for a non-empty separator, Python semantics:
non-overlapping leftmost occurrences, empty pieces kept. -/
def splitOnGo (sep : Str) : Nat → Str → List Str
  | 0, l => [l]
  | _ + 1, [] => [[]]
  | fuel + 1, c :: cs =>
    if startsWithCL sep (c :: cs) then
      [] :: splitOnGo sep fuel ((c :: cs).drop sep.length)
    else
      match splitOnGo sep fuel cs with
      | [] => [[c]]
      | h :: t => (c :: h) :: t

def splitOnCL (sep l : Str) : List Str := splitOnGo sep (l.length + 1) l

/-- `text.strip()`: drop whitespace from both ends. -/
def trimCL (l : Str) : Str :=
  ((l.dropWhile Char.isWhitespace).reverse.dropWhile Char.isWhitespace).reverse

/-- `list.index(x)`: position of the first occurrence (total function;
callers below always pass a member). -/
def indexOfCL (a : Str) : List Str → Nat
  | [] => 0
  | b :: bs => if a = b then 0 else indexOfCL a bs + 1

/-- One parsed quiz question: the JSON record
`{question, options, correct_answer}` shared by all generators. -/
structure Question where
  question : Str
  options : List Str
  correct_answer : Nat
deriving DecidableEq

namespace RobustQuizGenerator

/-- One entry of the `physics_knowledge` dictionary. -/
structure Knowledge where
  definition : Str
  characteristics : List Str
  units : List Str
deriving DecidableEq

/-- The `physics_knowledge` dictionary, in insertion order (Python dicts
preserve it). -/
def physics_knowledge : List (Str × Knowledge) := [
  (str "енергија", ⟨str "Способност за вршење работа",
    [str "Се зачувува", str "Се трансформира", str "Има различни видови"],
    [str "Јули (J)", str "Калории", str "Електронволти"]⟩),
  (str "сила", ⟨str "Влијание што го менува движењето на телото",
    [str "Има големина и насока", str "Се мери во Њутни", str "Може да забрзува"],
    [str "Њутн (N)", str "Килограм-сила"]⟩),
  (str "брзина", ⟨str "Промена на положбата во време",
    [str "Има големина и насока", str "Се мери во m/s", str "Може да се менува"],
    [str "m/s", str "km/h", str "km/s"]⟩),
  (str "забрзување", ⟨str "Промена на брзината во време",
    [str "Се мери во m/s²", str "Може да биде позитивно или негативно", str "Зависи од силата"],
    [str "m/s²", str "g (гравитациско забрзување)"]⟩),
  (str "маса", ⟨str "Количество материја во тело",
    [str "Се мери во килограми", str "Не се менува", str "Определува инерција"],
    [str "кг (kg)", str "грам (g)", str "тон"]⟩),
  (str "притисок", ⟨str "Сила по единица површина",
    [str "Се мери во Паскали", str "Се пренесува во течности", str "Зависи од длабочината"],
    [str "Па (Pa)", str "атмосфера", str "бар"]⟩),
  (str "температура", ⟨str "Мера за топлинската енергија",
    [str "Се мери во Целзиусови или Келвинови степени", str "Определува насока на топлинска размена"],
    [str "°C", str "°F", str "K (Келвин)"]⟩),
  (str "топлина", ⟨str "Енергија што се пренесува поради температурна разлика",
    [str "Се пренесува од топло кон ладно", str "Се мери во Јули", str "Може да промени температура"],
    [str "Ј (J)", str "калории", str "kWh"]⟩),
  (str "електрична", ⟨str "Сврпзана со електрични полнежи",
    [str "Има позитивен и негативен полнеж", str "Се привлекуваат спротивните", str "Се одбиваат истите"],
    [str "Кулон (C)", str "Ампер (A)", str "Волт (V)"]⟩),
  (str "магнетна", ⟨str "Сврпзана со магнетни полиња",
    [str "Има северен и јужен пол", str "Се привлекуваат спротивните", str "Влијае на движечки полнежи"],
    [str "Тесла (T)", str "Гаус", str "Вебер (Wb)"]⟩),
  (str "осцилација", ⟨str "Периодично движење околу рамнотежна положба",
    [str "Има период и фреквенција", str "Се повторува", str "Може да биде задушена"],
    [str "Херц (Hz)", str "радијан/секунда"]⟩),
  (str "бранови", ⟨str "Пренос на енергија без пренос на материја",
    [str "Има бранова должина", str "Има фреквенција", str "Може да се рефлектира"],
    [str "метри (м)", str "Херц (Hz)", str "m/s"]⟩),
  (str "атом", ⟨str "Најмала единица на елемент",
    [str "Се состои од јадро и електрони", str "Има атомска маса", str "Може да се јонизира"],
    [str "атомска маса единица", str "метри"]⟩)]

/-- The ten question templates; Python's `template.format(concept=c)`
becomes function application. -/
def question_templates : List (Str → Str) := [
  fun c => str "Што е " ++ c ++ str "?",
  fun c => str "Како се дефинира " ++ c ++ str "?",
  fun c => str "Кои се карактеристиките на " ++ c ++ str "?",
  fun c => str "Како функционира " ++ c ++ str "?",
  fun c => str "Зошто е важен " ++ c ++ str "?",
  fun c => str "Каде се користи " ++ c ++ str "?",
  fun c => str "Каков е принципот на " ++ c ++ str "?",
  fun c => str "Што предизвикува " ++ c ++ str "?",
  fun c => str "Како се мери " ++ c ++ str "?",
  fun c => str "Кои се единиците за " ++ c ++ str "?"]

/-- The three cleaning substitutions at the head of
`clean_and_extract_concepts` and `generate_with_openai`, in source
order. -/
def cleanText (text : Str) : Str := stripSecNums (stripNIA (collapseWs text))

/-- `re.search(r'\b<term>\b', text, re.IGNORECASE)` for the all-letter
dictionary terms: some maximal word run of the text lowercases to the
term. -/
def matchesKnownTerm (t : Str) (term : Str) : Bool :=
  (wordRuns t).any fun r => lowerCL r == term

/-- The structural words excluded from the concept list. -/
def exclude_words : List Str :=
  [str "ТЕКСТ", str "СТРАНИЦА", str "ПОГЛАВЈЕ", str "СЛИКА",
   str "ТАБЕЛА", str "ПРИМЕР", str "ЗАДАЧА"]

/-- `re.findall(r'\b[А-Я][а-я]{3,15}\b', text)`: the maximal word runs
consisting of one uppercase Cyrillic letter followed by 3 to 15
lowercase Cyrillic letters. -/
def capitalizedTerms (t : Str) : List Str :=
  (wordRuns t).filter fun r =>
    match r with
    | [] => false
    | c :: cs => isUpperCyr c && cs.all isLowerCyr && 3 ≤ cs.length && cs.length ≤ 15

/-- `clean_and_extract_concepts`.  `setOrder` stands for the iteration
order of `list(set(concepts))`, which Python leaves unspecified (string
hash randomization); a faithful instantiation is any function with
`(setOrder l).Perm l.dedup`. -/
def clean_and_extract_concepts (setOrder : List Str → List Str) (text : Str) : List Str :=
  let t := cleanText text
  let known := (physics_knowledge.map Prod.fst).filterMap fun term =>
    if matchesKnownTerm t term then some (titleCL term) else none
  let concepts := (capitalizedTerms t).foldl
    (fun acc term => if term ∈ acc then acc else acc ++ [term]) known
  let deduped := setOrder concepts
  (deduped.filter fun c => c ∉ exclude_words).take 8

/-- The three generic wrong answers of the known-concept branch of
`generate_realistic_options`. -/
def gWrong1 (concept : Str) : Str := str "Ова не е точна дефиниција за " ++ concept

def gWrong2 (concept : Str) : Str := concept ++ str " се дефинира поинаку"

def gWrong3 (concept : Str) : Str := str "Ова не одговара на " ++ concept

/-- The string the code designates as the correct answer before
shuffling (dictionary definition when the concept is known, the generic
importance sentence otherwise). -/
def correctAnswerOf (concept : Str) : Str :=
  match physics_knowledge.lookup (lowerCL concept) with
  | some knowledge => knowledge.definition
  | none => concept ++ str " е важен концепт во физиката"

/-- `generate_realistic_options`; `shuffle` stands for the permutation
`random.shuffle` applies in place. -/
def generate_realistic_options (shuffle : List Str → List Str)
    (concept : Str) (all_concepts : List Str) : List Str × Nat :=
  let concept_lower := lowerCL concept
  match physics_knowledge.lookup concept_lower with
  | some knowledge =>
    let correct_answer := knowledge.definition
    let other_concepts := all_concepts.filter fun c => lowerCL c != concept_lower
    let fromOthers := (other_concepts.take 2).filterMap fun oc =>
      (physics_knowledge.lookup (lowerCL oc)).map (fun k => k.definition)
    let wrong_options := fromOthers ++ [gWrong1 concept, gWrong2 concept, gWrong3 concept]
    let options := correct_answer :: wrong_options.take 3
    let shuffled := shuffle options
    (shuffled, indexOfCL correct_answer shuffled)
  | none =>
    let correct_answer := concept ++ str " е важен концепт во физиката"
    let wrong_options := [concept ++ str " не е физички концепт",
      concept ++ str " се користи во други науки",
      concept ++ str " нема физичко значење"]
    let options := correct_answer :: wrong_options.take 3
    let shuffled := shuffle options
    (shuffled, indexOfCL correct_answer shuffled)

/-- The substitute pool `generate_simple` falls back to when extraction
finds nothing. -/
def fallbackConcepts : List Str :=
  [str "Енергија", str "Сила", str "Брзина", str "Притисок"]

/-- `generate_simple`; `tpick i` indexes the template chosen by
`random.choice` in iteration `i`, `shuffle i` the permutation applied to
that iteration's options. -/
def generate_simple (setOrder : List Str → List Str) (tpick : Nat → Nat)
    (shuffle : Nat → List Str → List Str) (content : Str) (n : Nat) : List Question :=
  let extracted := clean_and_extract_concepts setOrder content
  let concepts := if extracted.isEmpty then fallbackConcepts else extracted
  (List.range (min n concepts.length)).map fun i =>
    let concept := concepts.getD i []
    let question := (question_templates.getD (tpick i % question_templates.length) (fun _ => [])) concept
    let result := generate_realistic_options (shuffle i) concept concepts
    ⟨question, result.1, result.2⟩

/-- The letter table `{'A':0,'B':1,'C':2,'D':3}` with `.get(letter, 0)`. -/
def letterToIndex (s : Str) : Nat :=
  if s = str "A" then 0
  else if s = str "B" then 1
  else if s = str "C" then 2
  else if s = str "D" then 3
  else 0

/-- Non-empty stripped lines of a reply block. -/
def blockLines (block : Str) : List Str :=
  ((splitOnCL (str "\n") block).map trimCL).filter fun l => l ≠ []

/-- `line.startswith('A)') or ... or line.startswith('D)')`. -/
def optLine (line : Str) : Bool :=
  startsWithCL (str "A)") line || startsWithCL (str "B)") line ||
  startsWithCL (str "C)") line || startsWithCL (str "D)") line

/-- `line.startswith('Точен одговор:')`. -/
def markerLine (line : Str) : Bool := startsWithCL (str "Точен одговор:") line

/-- `line.split(':')[1].strip()`, the extracted letter token. -/
def markerToken (line : Str) : Str := trimCL ((splitOnCL (str ":") line).getD 1 [])

/-- The option/answer-line scan over `lines[1:]`: collect remainders of
lines starting with a recognized option prefix, and keep the letter token
of the last line starting with the correct-answer marker. -/
def scanLines (rest : List Str) : List Str × Option Str :=
  rest.foldl (fun acc line =>
    if optLine line then (acc.1 ++ [trimCL (line.drop 2)], acc.2)
    else if markerLine line then (acc.1, some (markerToken line))
    else acc) ([], none)

/-- Token of the last correct-answer marker line of the scan, `none`
when no such line occurs. -/
def lastMarker (rest : List Str) : Option Str :=
  rest.foldl (fun acc line =>
    if optLine line then acc
    else if markerLine line then some (markerToken line)
    else acc) none

/-- The per-block body of `parse_questions`: `none` models `continue`. -/
def parseBlock (block : Str) : Option Question :=
  if trimCL block = [] then none else
  let lines := blockLines block
  if lines.length < 6 then none else
  let question := trimCL ((lines.getD 0 []).filter fun c => c ≠ ':')
  let scanned := scanLines (lines.drop 1)
  if scanned.1.length = 4 ∧ scanned.2.getD [] ≠ [] then
    some ⟨question, scanned.1, letterToIndex (scanned.2.getD [])⟩
  else none

/-- `parse_questions`: split on the marker, drop the preamble, keep the
blocks that parse. -/
def parse_questions (generated_text : Str) : List Question :=
  ((splitOnCL (str "Прашање") generated_text).drop 1).filterMap parseBlock

/-- Outcome of the single `requests.post` call: an HTTP response with a
status and body, or a raised exception (transport error, timeout, bad
JSON — anything caught by the `except` clause). -/
inductive RemoteResult where
  | ok (status : Nat) (body : Str)
  | exn
deriving DecidableEq

/-- Python truthiness of the stored credential (`None` and the empty
string are falsy). -/
def keyTruthy : Option Str → Bool
  | none => false
  | some k => !k.isEmpty

/-- `generate_with_openai`: without a truthy key, or on any non-200
status, or on an exception, fall back to `generate_simple`; on a 200
response, parse the body. -/
def generate_with_openai (setOrder : List Str → List Str) (tpick : Nat → Nat)
    (shuffle : Nat → List Str → List Str) (key : Option Str)
    (remote : RemoteResult) (content : Str) (n : Nat) : List Question :=
  if !keyTruthy key then generate_simple setOrder tpick shuffle content n
  else
    match remote with
    | .ok status body =>
      if status = 200 then parse_questions body
      else generate_simple setOrder tpick shuffle content n
    | .exn => generate_simple setOrder tpick shuffle content n

/-- Number of network requests `generate_with_openai` issues:
`requests.post` is reached exactly once, and only in the truthy-key
branch. -/
def openaiAttempts (key : Option Str) : Nat :=
  if keyTruthy key then 1 else 0

/-- `generate_questions`, the engine's entry point. -/
def generate_questions (use_openai : Bool) (key : Option Str)
    (setOrder : List Str → List Str) (tpick : Nat → Nat)
    (shuffle : Nat → List Str → List Str)
    (remote : RemoteResult) (content : Str) (n : Nat) : List Question :=
  if use_openai && keyTruthy key then
    generate_with_openai setOrder tpick shuffle key remote content n
  else generate_simple setOrder tpick shuffle content n

/-- Number of network requests a `generate_questions` call issues. -/
def questionsAttempts (use_openai : Bool) (key : Option Str) : Nat :=
  if use_openai && keyTruthy key then openaiAttempts key else 0

end RobustQuizGenerator

namespace AIQuizGenerator

/-- The three keyword lists of `detect_subject`. -/
def physics_keywords : List Str :=
  [str "физика", str "енергија", str "сила", str "брзина", str "забрзување",
   str "маса", str "волумен", str "притисок", str "температура", str "топлина",
   str "електрична", str "магнетна", str "осцилација", str "бранови"]

def biology_keywords : List Str :=
  [str "биологија", str "ќелија", str "организам", str "орган", str "тканина",
   str "систем", str "метаболизам", str "ДНК", str "протеин", str "ензим"]

def chemistry_keywords : List Str :=
  [str "хемија", str "атом", str "молекула", str "соединение", str "реакција",
   str "елемент", str "период", str "оксидација", str "редукција"]

/-- `sum(1 for keyword in keywords if keyword in text_lower)`. -/
def keywordScore (keywords : List Str) (text_lower : Str) : Nat :=
  keywords.countP fun kw => containsCL kw text_lower

def physicsScore (text : Str) : Nat := keywordScore physics_keywords (lowerCL text)

def biologyScore (text : Str) : Nat := keywordScore biology_keywords (lowerCL text)

def chemistryScore (text : Str) : Nat := keywordScore chemistry_keywords (lowerCL text)

/-- The classifier's decision chain as a function of the three scores
alone (the spec's "pure function of keyword counts"). -/
def selectSubject (p b c : Nat) : Str :=
  if b ≤ p ∧ c ≤ p then str "physics"
  else if c ≤ b then str "biology"
  else if 0 < c then str "chemistry"
  else str "general"

/-- `detect_subject`. -/
def detect_subject (text : Str) : Str :=
  selectSubject (physicsScore text) (biologyScore text) (chemistryScore text)

/-- The per-subject template table, and the lookup with `general` as
default. -/
def general_templates : List (Str → Str) := [
  fun c => str "Што е " ++ c ++ str "?",
  fun c => str "Кои се карактеристиките на " ++ c ++ str "?",
  fun c => str "Како функционира " ++ c ++ str "?",
  fun c => str "Зошто е важно " ++ c ++ str "?",
  fun c => str "Кога се користи " ++ c ++ str "?",
  fun c => str "Каков е ефектот на " ++ c ++ str "?",
  fun c => str "Што предизвикува " ++ c ++ str "?",
  fun c => str "Како се мери " ++ c ++ str "?"]

def physics_templates : List (Str → Str) := [
  fun c => str "Што е " ++ c ++ str " во физиката?",
  fun c => str "Како се пресметува " ++ c ++ str "?",
  fun c => str "Кои се единиците за " ++ c ++ str "?",
  fun c => str "Каков е принципот на " ++ c ++ str "?",
  fun c => str "Што влијае на " ++ c ++ str "?",
  fun c => str "Како се применува " ++ c ++ str "?"]

def biology_templates : List (Str → Str) := [
  fun c => str "Што е " ++ c ++ str " во биологијата?",
  fun c => str "Каде се наоѓа " ++ c ++ str "?",
  fun c => str "Како функционира " ++ c ++ str "?",
  fun c => str "Зошто е важен " ++ c ++ str "?",
  fun c => str "Што се случува ако недостасува " ++ c ++ str "?"]

def chemistry_templates : List (Str → Str) := [
  fun c => str "Што е " ++ c ++ str " во хемијата?",
  fun c => str "Како се формира " ++ c ++ str "?",
  fun c => str "Кои се својствата на " ++ c ++ str "?",
  fun c => str "Што се случува кога " ++ c ++ str " реагира?",
  fun c => str "Каде се користи " ++ c ++ str "?"]

def templatesFor (subject : Str) : List (Str → Str) :=
  if subject = str "physics" then physics_templates
  else if subject = str "biology" then biology_templates
  else if subject = str "chemistry" then chemistry_templates
  else general_templates

/-- `generate_options` of `AIQuizGenerator`. -/
def generate_options (shuffle : List Str → List Str)
    (correct_concept : Str) (all_concepts : List Str) (subject : Str) : List Str × Nat :=
  let correct_answer := str "Точно - " ++ correct_concept ++ str " е важен концепт во " ++ subject
  let wrong_concepts := all_concepts.filter fun c => c ≠ correct_concept
  let wrong_options :=
    if 3 ≤ wrong_concepts.length then
      [str "Погрешно - " ++ wrong_concepts.getD 0 [] ++ str " не е поврзан со ова прашање",
       str "Не точно - " ++ (if 1 < wrong_concepts.length then wrong_concepts.getD 1 [] else str "овој концепт") ++ str " е различен",
       str "Неточно - " ++ (if 2 < wrong_concepts.length then wrong_concepts.getD 2 [] else str "оваа опција") ++ str " не одговара"]
    else
      [str "Ова не е точен одговор", str "Оваа опција е погрешна", str "Неточно"]
  let options := shuffle (correct_answer :: wrong_options)
  (options, indexOfCL correct_answer options)

/-- The question loop of `AIQuizGenerator.generate_simple` (lines
166-184), parameterized by the extracted concept pool and detected
subject, recording the concept `random.choice` draws at each iteration.
`generate_simple` itself is this composed with `extract_key_concepts`
and `detect_subject`, returning the second components. -/
def composeSteps (cpick tpick : Nat → Nat) (shuffle : Nat → List Str → List Str)
    (concepts : List Str) (subject : Str) (n : Nat) : List (Str × Question) :=
  let templates := templatesFor subject
  (List.range (min n concepts.length)).map fun i =>
    let concept := concepts.getD (cpick i % concepts.length) []
    let question := (templates.getD (tpick i % templates.length) (fun _ => [])) concept
    let result := generate_options (shuffle i) concept concepts subject
    (concept, ⟨question, result.1, result.2⟩)

end AIQuizGenerator

namespace EnhancedAIQuizGenerator

/-- One extracted concept record: `{'term', 'type', 'context',
'confidence'}`.  The confidence is only consulted inside extraction's
deduplication, which is upstream of the batch loop embedded here, so it
is not carried. -/
structure Concept where
  term : Str
  ctype : Str
  context : Str
deriving DecidableEq

/-- The three template families the enhanced batch loop draws from. -/
def definition_templates : List (Str → Str) := [
  fun c => str "Што е " ++ c ++ str "?",
  fun c => str "Како се дефинира " ++ c ++ str "?",
  fun c => str "Што се подразбира под " ++ c ++ str "?",
  fun c => str "Која е дефиницијата за " ++ c ++ str "?"]

def characteristics_templates : List (Str → Str) := [
  fun c => str "Кои се карактеристиките на " ++ c ++ str "?",
  fun c => str "Што се својствата на " ++ c ++ str "?",
  fun c => str "Какви се особините на " ++ c ++ str "?",
  fun c => str "Кои се главните карактеристики на " ++ c ++ str "?"]

def function_templates : List (Str → Str) := [
  fun c => str "Како функционира " ++ c ++ str "?",
  fun c => str "Како работи " ++ c ++ str "?",
  fun c => str "Што е функцијата на " ++ c ++ str "?",
  fun c => str "Како се користи " ++ c ++ str "?"]

/-- `context[:100] + "..." if len(context) > 100 else context`. -/
def truncate100 (context : Str) : Str :=
  if 100 < context.length then context.take 100 ++ str "..." else context

/-- `generate_definition_options`. -/
def generate_definition_options (shuffle : List Str → List Str)
    (concept : Concept) (all_concepts : List Concept) : List Str × Nat :=
  let correct_answer := truncate100 concept.context
  let other_concepts := all_concepts.filter fun c => c.term ≠ concept.term
  let fromOthers :=
    if 3 ≤ other_concepts.length then
      (other_concepts.take 3).filterMap fun oc =>
        if oc.context ≠ [] then some (truncate100 oc.context) else none
    else []
  let generics := [str "Тоа е погрешен одговор за овој концепт",
    str "Ова не одговара на дефиницијата",
    str "Ова не е точна карактеристика"]
  let wrong_options := fromOthers ++ generics.drop fromOthers.length
  let options := shuffle (correct_answer :: wrong_options)
  (options, indexOfCL correct_answer options)

/-- `generate_function_options`. -/
def generate_function_options (shuffle : List Str → List Str)
    (concept : Concept) (_all_concepts : List Concept) : List Str × Nat :=
  let context := concept.context
  let correct_answer :=
    if containsCL (str "функционира") (lowerCL context) || containsCL (str "работи") (lowerCL context) then
      (if 120 < context.length then context.take 120 ++ str "..." else context)
    else concept.term ++ str " функционира според принципите опишани во текстот"
  let wrong_options := [
    concept.term ++ str " функционира на спротивен начин од опишаниот",
    concept.term ++ str " не функционира како што е опишано",
    concept.term ++ str " функционира независно од основните принципи"]
  let options := shuffle (correct_answer :: wrong_options)
  (options, indexOfCL correct_answer options)

/-- `generate_characteristic_options`. -/
def generate_characteristic_options (shuffle : List Str → List Str)
    (concept : Concept) (_all_concepts : List Concept) : List Str × Nat :=
  let correct_answer := str "Главните карактеристики на " ++ concept.term ++ str " се опишани во текстот"
  let wrong_options := [
    concept.term ++ str " нема специфични карактеристики",
    str "Карактеристиките на " ++ concept.term ++ str " се непознати",
    concept.term ++ str " има карактеристики различни од опишаните"]
  let options := shuffle (correct_answer :: wrong_options)
  (options, indexOfCL correct_answer options)

/-- Question construction for one chosen concept (the `if/elif/else` on
the concept's type inside the loop). -/
def buildQuestion (tpick : Nat) (shuffle : List Str → List Str)
    (concept : Concept) (concepts : List Concept) : Question :=
  if concept.ctype = str "definition" then
    let question := (definition_templates.getD (tpick % definition_templates.length) (fun _ => [])) concept.term
    let result := generate_definition_options shuffle concept concepts
    ⟨question, result.1, result.2⟩
  else if concept.ctype = str "technical" then
    let question := (function_templates.getD (tpick % function_templates.length) (fun _ => [])) concept.term
    let result := generate_function_options shuffle concept concepts
    ⟨question, result.1, result.2⟩
  else
    let question := (characteristics_templates.getD (tpick % characteristics_templates.length) (fun _ => [])) concept.term
    let result := generate_characteristic_options shuffle concept concepts
    ⟨question, result.1, result.2⟩

/-- The batch loop of `generate_enhanced_simple` (lines 230-262),
parameterized by the extracted concept pool and recording the term used
at each step.  `remaining` counts loop iterations left
(`min(num_questions, len(concepts))` at the top call); the empty
`available_concepts` case models the loop's `break`. -/
def batchSteps (cpick tpick : Nat → Nat) (shuffle : Nat → List Str → List Str)
    (concepts : List Concept) : Nat → Nat → List Str → List (Str × Question)
  | 0, _, _ => []
  | remaining + 1, i, used =>
    let available := concepts.filter fun c => c.term ∉ used
    if available.isEmpty then []
    else
      let concept := available.getD (cpick i % available.length) ⟨[], [], []⟩
      let q := buildQuestion (tpick i) (shuffle i) concept concepts
      (concept.term, q) :: batchSteps cpick tpick shuffle concepts remaining (i + 1) (concept.term :: used)

/-- `generate_enhanced_simple` given the extracted pool: the questions
of the batch, dropping the recorded terms. -/
def generate_enhanced_simple (cpick tpick : Nat → Nat)
    (shuffle : Nat → List Str → List Str) (concepts : List Concept) (n : Nat) : List Question :=
  (batchSteps cpick tpick shuffle concepts (min n concepts.length) 0 []).map Prod.snd

end EnhancedAIQuizGenerator

/-! Supporting lemmas about the string primitives. -/

theorem lookup_mem {α β : Type} [BEq α] [LawfulBEq α] {l : List (α × β)} {k : α} {v : β}
    (h : l.lookup k = some v) : (k, v) ∈ l := by
  induction l with
  | nil => simp [List.lookup] at h
  | cons a as ih =>
    rw [List.lookup] at h
    by_cases hk : k == a.1
    · rw [hk] at h
      obtain ⟨a1, a2⟩ := a
      obtain rfl : k = a1 := eq_of_beq hk
      obtain rfl : a2 = v := by simpa using h
      exact List.mem_cons_self _ _
    · rw [Bool.not_eq_true] at hk
      rw [hk] at h
      exact List.mem_cons_of_mem _ (ih h)

theorem indexOfCL_lt_length {a : Str} {l : List Str} (h : a ∈ l) :
    indexOfCL a l < l.length := by
  induction l with
  | nil => cases h
  | cons b bs ih =>
    rw [indexOfCL]
    by_cases hb : a = b
    · simp [hb]
    · rcases List.mem_cons.mp h with h' | h'
      · exact absurd h' hb
      · simpa [hb] using ih h'

theorem getD_indexOfCL {a : Str} {l : List Str} (h : a ∈ l) :
    l.getD (indexOfCL a l) [] = a := by
  induction l with
  | nil => cases h
  | cons b bs ih =>
    rw [indexOfCL]
    by_cases hb : a = b
    · simp [hb]
    · rcases List.mem_cons.mp h with h' | h'
      · exact absurd h' hb
      · simpa [hb] using ih h'

theorem getD_mod_mem {α : Type} {l : List α} (hne : l.isEmpty = false) (k : Nat) (d : α) :
    l.getD (k % l.length) d ∈ l := by
  have hlen : 0 < l.length := by
    cases l with
    | nil => simp at hne
    | cons a as => simp
  have hlt : k % l.length < l.length := Nat.mod_lt _ hlen
  rw [List.getD_eq_getElem _ _ hlt]
  exact List.getElem_mem _

/-! Claim C2: requested count as an upper bound. -/

/-- C2 (amended): on the local pipeline the requested count is an upper
bound — `generate_simple` returns at most `n` questions for every input,
random choice and set order.  (As stated the claim is false: the remote
path returns every block the parser accepts without truncating to `n`;
see the counterexample.) -/
theorem claim2_amended (setOrder : List Str → List Str) (tpick : Nat → Nat)
    (shuffle : Nat → List Str → List Str) (content : Str) (n : Nat) :
    (RobustQuizGenerator.generate_simple setOrder tpick shuffle content n).length ≤ n := by
  unfold RobustQuizGenerator.generate_simple
  simp only [List.length_map, List.length_range]
  omega

/-- C2 counterexample: a 200-status remote reply containing two
well-formed blocks makes `generate_with_openai` return 2 questions for a
request of `n = 1`, so the parsed remote reply can exceed the requested
count. -/
theorem claim2_counterexample :
    ¬ ((RobustQuizGenerator.generate_with_openai List.dedup (fun _ => 0) (fun _ l => l)
        (some (str "key"))
        (.ok 200 (str "Прашање 1: Q\nA) a\nB) b\nC) c\nD) d\nТочен одговор: A\nПрашање 2: R\nA) e\nB) f\nC) g\nD) h\nТочен одговор: B"))
        (str "") 1).length ≤ 1) := by
  decide

/-! Claim C3: the subject classifier's tie-break order. -/

/-- C3 (amended): `detect_subject` is a pure function of the three
keyword match counts via `selectSubject`; physics wins every tie
(including the all-zero case, where the code returns `physics`, not
`general` as the claim states); biology wins ties with chemistry;
chemistry is only returned with a positive count; `general` is never
returned. -/
theorem claim3_amended (t : Str) :
    AIQuizGenerator.detect_subject t =
      AIQuizGenerator.selectSubject (AIQuizGenerator.physicsScore t)
        (AIQuizGenerator.biologyScore t) (AIQuizGenerator.chemistryScore t)
    ∧ (∀ p b c : Nat, b ≤ p → c ≤ p → AIQuizGenerator.selectSubject p b c = str "physics")
    ∧ (∀ p b c : Nat, p < b → c ≤ b → AIQuizGenerator.selectSubject p b c = str "biology")
    ∧ (∀ p b c : Nat, AIQuizGenerator.selectSubject p b c = str "chemistry" → 0 < c)
    ∧ AIQuizGenerator.detect_subject t ≠ str "general" := by
  refine ⟨rfl, ?_, ?_, ?_, ?_⟩
  · intro p b c hb hc
    simp [AIQuizGenerator.selectSubject, hb, hc]
  · intro p b c hp hc
    have : ¬ (b ≤ p ∧ c ≤ p) := by omega
    simp [AIQuizGenerator.selectSubject, this, hc]
  · intro p b c h
    unfold AIQuizGenerator.selectSubject at h
    split_ifs at h with h1 h2 h3
    · exact absurd h (by decide)
    · exact absurd h (by decide)
    · exact h3
    · exact absurd h (by decide)
  · unfold AIQuizGenerator.detect_subject AIQuizGenerator.selectSubject
    split_ifs with h1 h2 h3
    · decide
    · decide
    · decide
    · omega

/-- C3 witness: instantiates the amended theorem at the spec's example
counts (physics 3, biology 3, chemistry 0 gives physics) and at a
concrete text. -/
theorem claim3_witness :
    AIQuizGenerator.selectSubject 3 3 0 = str "physics" ∧
    AIQuizGenerator.detect_subject (str "хемија") ≠ str "general" :=
  ⟨(claim3_amended []).2.1 3 3 0 (by decide) (by decide),
   (claim3_amended (str "хемија")).2.2.2.2⟩

/-- C3 counterexample: on a text with no keyword hits all three counts
are zero and the code returns `physics`, while the claim requires
`general` when no domain has a positive count. -/
theorem claim3_counterexample :
    AIQuizGenerator.physicsScore (str "бб") = 0 ∧
    AIQuizGenerator.biologyScore (str "бб") = 0 ∧
    AIQuizGenerator.chemistryScore (str "бб") = 0 ∧
    AIQuizGenerator.detect_subject (str "бб") = str "physics" ∧
    AIQuizGenerator.detect_subject (str "бб") ≠ str "general" := by
  decide

/-! Claim C5: remote failures are swallowed and fall back locally. -/

/-- C5: for every non-success outcome of the single remote call
(non-200 status or a raised exception, which covers transport errors and
timeouts), `generate_with_openai` returns exactly the local pipeline's
result for the same input and random state; the embedded function is
total, so no exception propagates, and at most one request is issued
(`openaiAttempts` is the number of times the post call is reached). -/
theorem claim5_theorem (setOrder : List Str → List Str) (tpick : Nat → Nat)
    (shuffle : Nat → List Str → List Str) (key : Option Str)
    (remote : RobustQuizGenerator.RemoteResult) (content : Str) (n : Nat)
    (hfail : ∀ body, remote ≠ .ok 200 body) :
    RobustQuizGenerator.generate_with_openai setOrder tpick shuffle key remote content n =
      RobustQuizGenerator.generate_simple setOrder tpick shuffle content n
    ∧ RobustQuizGenerator.openaiAttempts key ≤ 1 := by
  constructor
  · unfold RobustQuizGenerator.generate_with_openai
    split
    · rfl
    · cases remote with
      | exn => rfl
      | ok status body =>
        have hs : status ≠ 200 := by
          intro h
          exact hfail body (by rw [h])
        simp [hs]
  · unfold RobustQuizGenerator.openaiAttempts
    split <;> omega

/-- C5 witness: a concrete timeout-style exception with a configured key
falls back to the local result. -/
theorem claim5_witness :
    RobustQuizGenerator.generate_with_openai List.dedup (fun _ => 0) (fun _ l => l)
      (some (str "key")) .exn (str "текст") 3 =
      RobustQuizGenerator.generate_simple List.dedup (fun _ => 0) (fun _ l => l) (str "текст") 3
    ∧ RobustQuizGenerator.openaiAttempts (some (str "key")) ≤ 1 :=
  claim5_theorem List.dedup (fun _ => 0) (fun _ l => l) (some (str "key")) .exn
    (str "текст") 3 (fun body h => by cases h)

/-! Claim C6: no credential means no network call and the local result. -/

/-- C6: with remote mode preferred but no credential, the entry point
reaches zero network calls and returns exactly `generate_simple` on the
same input with the same injected random state, for every possible
would-be remote outcome. -/
theorem claim6_theorem (setOrder : List Str → List Str) (tpick : Nat → Nat)
    (shuffle : Nat → List Str → List Str) (remote : RobustQuizGenerator.RemoteResult)
    (content : Str) (n : Nat) :
    RobustQuizGenerator.generate_questions true none setOrder tpick shuffle remote content n =
      RobustQuizGenerator.generate_simple setOrder tpick shuffle content n
    ∧ RobustQuizGenerator.questionsAttempts true none = 0 := by
  exact ⟨rfl, rfl⟩

/-! Claim C4: behaviour when the extractor finds no concepts. -/

/-- C4 (amended): when its extractor finds no concepts the robust local
pipeline does not return an empty list — it substitutes the fixed pool
[Енергија, Сила, Брзина, Притисок] and builds `min n 4` questions from
it.  (The enhanced generator's batch loop, by contrast, does return the
empty list on an empty pool, second conjunct.) -/
theorem claim4_amended (setOrder : List Str → List Str) (tpick : Nat → Nat)
    (shuffle : Nat → List Str → List Str) (content : Str) (n : Nat)
    (hempty : RobustQuizGenerator.clean_and_extract_concepts setOrder content = []) :
    (RobustQuizGenerator.generate_simple setOrder tpick shuffle content n).length = min n 4
    ∧ ∀ cpick tpick₂ shuffle₂ m,
        EnhancedAIQuizGenerator.generate_enhanced_simple cpick tpick₂ shuffle₂ [] m = [] := by
  constructor
  · unfold RobustQuizGenerator.generate_simple
    rw [hempty]
    simp [RobustQuizGenerator.fallbackConcepts]
  · intro cpick tpick₂ shuffle₂ m
    unfold EnhancedAIQuizGenerator.generate_enhanced_simple
    simp [EnhancedAIQuizGenerator.batchSteps]

/-- C4 witness: the empty text extracts nothing, and the robust pipeline
then returns 4 (not 0) questions for a request of 5. -/
theorem claim4_witness :
    (RobustQuizGenerator.generate_simple List.dedup (fun _ => 0) (fun _ l => l) [] 5).length =
      min 5 4 :=
  (claim4_amended List.dedup (fun _ => 0) (fun _ l => l) [] 5 (by decide)).1

/-- C4 counterexample: the extractor finds no concepts in the empty
text, yet `generate_simple` returns 4 questions built from the
substitute concepts — the claim requires the empty list. -/
theorem claim4_counterexample :
    RobustQuizGenerator.clean_and_extract_concepts List.dedup [] = []
    ∧ (RobustQuizGenerator.generate_simple List.dedup (fun _ => 0) (fun _ l => l) [] 5).length = 4
    ∧ (RobustQuizGenerator.generate_simple List.dedup (fun _ => 0) (fun _ l => l) [] 5).map
        Question.question =
      [str "Што е Енергија?", str "Што е Сила?", str "Што е Брзина?", str "Што е Притисок?"] := by
  refine ⟨by decide, by decide, by decide⟩

/-! Claim C7: the parser round-trip on a well-formed block. -/

/-- The spec's round-trip reply: marker, prompt, four lettered options,
correct-answer line naming C. -/
def sampleReplyC7 : Str := str "Прашање 1: X\nA) a\nB) b\nC) c\nD) d\nТочен одговор: C"

/-- C7 (amended): the well-formed block yields exactly one question with
options `[a, b, c, d]` in order and correct index 2, but its prompt is
line 0 with every colon character removed and then stripped (`"1 X"`),
not merely trailing punctuation. -/
theorem claim7_amended :
    RobustQuizGenerator.parse_questions sampleReplyC7 =
      [⟨trimCL ((str "1: X").filter fun c => c ≠ ':'),
        [str "a", str "b", str "c", str "d"], 2⟩] := by
  decide

/-- C7 counterexample: the produced prompt is `"1 X"` — `replace(':','')`
removes the interior colon too — so the parse differs from the claimed
record with prompt `"1: X"`. -/
theorem claim7_counterexample :
    RobustQuizGenerator.parse_questions sampleReplyC7 =
      [⟨str "1 X", [str "a", str "b", str "c", str "d"], 2⟩]
    ∧ RobustQuizGenerator.parse_questions sampleReplyC7 ≠
      [⟨str "1: X", [str "a", str "b", str "c", str "d"], 2⟩] := by
  exact ⟨by decide, by decide⟩

/-! Claim C9: concept reuse within one generation batch. -/

theorem batchSteps_terms_invariant (cpick tpick : Nat → Nat)
    (shuffle : Nat → List Str → List Str) (concepts : List EnhancedAIQuizGenerator.Concept) :
    ∀ remaining i used,
      ((EnhancedAIQuizGenerator.batchSteps cpick tpick shuffle concepts remaining i used).map
        Prod.fst).Nodup
      ∧ ∀ t ∈ (EnhancedAIQuizGenerator.batchSteps cpick tpick shuffle concepts remaining i
          used).map Prod.fst, t ∉ used := by
  intro remaining
  induction remaining with
  | zero => intro i used; simp [EnhancedAIQuizGenerator.batchSteps]
  | succ r ih =>
    intro i used
    rw [EnhancedAIQuizGenerator.batchSteps]
    set available := concepts.filter (fun c => c.term ∉ used) with havail
    by_cases hav : available.isEmpty
    · simp [hav]
    · rw [if_neg hav]
      rw [Bool.not_eq_true] at hav
      set concept := available.getD (cpick i % available.length) ⟨[], [], []⟩ with hc
      have hmem : concept ∈ available := getD_mod_mem hav _ _
      have hnotused : concept.term ∉ used := by
        have := (List.mem_filter.mp (havail ▸ hmem)).2
        exact of_decide_eq_true this
      obtain ⟨ih1, ih2⟩ := ih (i + 1) (concept.term :: used)
      refine ⟨?_, ?_⟩
      · rw [List.map_cons, List.nodup_cons]
        refine ⟨fun hmem' => ?_, ih1⟩
        exact (ih2 _ hmem') (List.mem_cons_self _ _)
      · intro t ht
        rcases List.mem_cons.mp ht with rfl | ht'
        · exact hnotused
        · intro htu
          exact (ih2 _ ht') (List.mem_cons_of_mem _ htu)

/-- C9 (amended): the enhanced generator's batch loop never uses the
same concept term twice — whatever the pool, the requested count and the
random draws, the terms of the produced batch are pairwise distinct.
(As stated the claim is false for `AIQuizGenerator.generate_simple`,
which draws `random.choice(concepts)` with replacement; see the
counterexample.) -/
theorem claim9_amended (cpick tpick : Nat → Nat) (shuffle : Nat → List Str → List Str)
    (concepts : List EnhancedAIQuizGenerator.Concept) (n : Nat) :
    ((EnhancedAIQuizGenerator.batchSteps cpick tpick shuffle concepts
      (min n concepts.length) 0 []).map Prod.fst).Nodup :=
  (batchSteps_terms_invariant cpick tpick shuffle concepts (min n concepts.length) 0 []).1

/-- C9 counterexample: a pool of two distinct concepts and a request for
two questions, with a random stream that always draws index 0 — the AI
generator's loop uses the concept `Сила` for both questions. -/
theorem claim9_counterexample :
    ((AIQuizGenerator.composeSteps (fun _ => 0) (fun _ => 0) (fun _ l => l)
        [str "Сила", str "Маса"] (str "physics") 2).map Prod.fst) =
      [str "Сила", str "Сила"]
    ∧ ¬ ([str "Сила", str "Сила"] : List Str).Nodup
    ∧ ([str "Сила", str "Маса"] : List Str).Nodup := by
  refine ⟨by decide, by decide, by decide⟩

/-! Claim C10: effect of the `[ннина]+` deletion on extracted terms. -/

theorem mem_of_mem_stripSecGo : ∀ (fuel : Nat) (l : Str) (c : Char),
    c ∈ stripSecGo fuel l → c ∈ l := by
  intro fuel
  induction fuel with
  | zero => intro l c h; simpa [stripSecGo] using h
  | succ f ih =>
    intro l c h
    cases l with
    | nil => simp [stripSecGo] at h
    | cons a as =>
      rw [stripSecGo] at h
      cases hsec : secHead (a :: as) with
      | some n =>
        rw [hsec] at h
        exact List.mem_of_mem_drop (ih _ _ h)
      | none =>
        rw [hsec] at h
        rcases List.mem_cons.mp h with rfl | h'
        · exact List.mem_cons_self _ _
        · exact List.mem_cons_of_mem _ (ih _ _ h')

theorem mem_of_mem_wordRunsGo : ∀ (fuel : Nat) (l r : Str),
    r ∈ wordRunsGo fuel l → ∀ c ∈ r, c ∈ l := by
  intro fuel
  induction fuel with
  | zero => intro l r h; simp [wordRunsGo] at h
  | succ f ih =>
    intro l r h c hc
    cases l with
    | nil => simp [wordRunsGo] at h
    | cons a as =>
      rw [wordRunsGo] at h
      by_cases hw : pyIsWordChar a
      · rw [if_pos hw] at h
        rcases List.mem_cons.mp h with rfl | h'
        · rcases List.mem_cons.mp hc with rfl | hc'
          · exact List.mem_cons_self _ _
          · exact List.mem_cons_of_mem _ ((List.takeWhile_sublist _).subset hc')
        · exact List.mem_cons_of_mem _ ((List.dropWhile_sublist _).subset (ih _ _ h' c hc))
      · rw [if_neg hw] at h
        exact List.mem_cons_of_mem _ (ih _ _ h c hc)

/-- Every character of the cleaned text survives the `[ннина]+`
deletion, hence is none of н, и, а. -/
theorem cleanText_no_nia (text : Str) :
    ∀ c ∈ RobustQuizGenerator.cleanText text, isNIA c = false := by
  intro c hc
  unfold RobustQuizGenerator.cleanText at hc
  have h2 : c ∈ stripNIA (collapseWs text) := mem_of_mem_stripSecGo _ _ _ hc
  have h3 := (List.mem_filter.mp h2).2
  simpa using h3

/-- C10 (amended): the capitalized-pattern branch can only produce terms
free of lowercase н, и, а, because those characters are deleted from the
whole text before matching; but the known-term branch still fires —
matching is case-insensitive and uppercase letters survive the deletion
— so `clean_and_extract_concepts` can emit title-cased
`physics_knowledge` keys, which do contain those letters (second
conjunct: the all-uppercase text ЕНЕРГИЈА yields the key's title
`Енергија`). -/
theorem claim10_amended :
    (∀ text : Str, ∀ term ∈ RobustQuizGenerator.capitalizedTerms
        (RobustQuizGenerator.cleanText text), ∀ ch ∈ term, isNIA ch = false)
    ∧ RobustQuizGenerator.clean_and_extract_concepts List.dedup (str "ЕНЕРГИЈА") =
        [str "Енергија"] := by
  constructor
  · intro text term hterm ch hch
    have hrun : term ∈ wordRuns (RobustQuizGenerator.cleanText text) :=
      (List.mem_filter.mp hterm).1
    exact cleanText_no_nia text ch (mem_of_mem_wordRunsGo _ _ _ hrun ch hch)
  · decide

/-- C10 witness: a concrete capitalized term of a concrete text, with
one of its characters. -/
theorem claim10_witness : isNIA 'К' = false :=
  claim10_amended.1 (str "Крост") (str "Крост") (by decide) 'К' (by decide)

/-- C10 counterexample: on the all-uppercase text ЕНЕРГИЈА the cleaner
deletes nothing, the case-insensitive known-term search matches the key
`енергија`, and the extractor returns its title `Енергија` — a term
containing all three of н, и, а, contradicting both halves of the
claim. -/
theorem claim10_counterexample :
    RobustQuizGenerator.clean_and_extract_concepts List.dedup (str "ЕНЕРГИЈА") =
      [str "Енергија"]
    ∧ 'н' ∈ str "Енергија" ∧ 'и' ∈ str "Енергија" ∧ 'а' ∈ str "Енергија"
    ∧ str "Енергија" = titleCL (str "енергија")
    ∧ (str "енергија") ∈ RobustQuizGenerator.physics_knowledge.map Prod.fst := by
  refine ⟨by decide, by decide, by decide, by decide, by decide, by decide⟩

/-! Claim C8: the parser's block acceptance condition. -/

theorem scanLines_foldl_spec : ∀ (rest : List Str) (opts : List Str) (m : Option Str),
    rest.foldl (fun acc line =>
      if RobustQuizGenerator.optLine line then (acc.1 ++ [trimCL (line.drop 2)], acc.2)
      else if RobustQuizGenerator.markerLine line then
        (acc.1, some (RobustQuizGenerator.markerToken line))
      else acc) (opts, m) =
    (opts ++ rest.filterMap (fun line =>
        if RobustQuizGenerator.optLine line then some (trimCL (line.drop 2)) else none),
     rest.foldl (fun acc line =>
        if RobustQuizGenerator.optLine line then acc
        else if RobustQuizGenerator.markerLine line then
          some (RobustQuizGenerator.markerToken line)
        else acc) m) := by
  intro rest
  induction rest with
  | nil => intro opts m; simp
  | cons line rest ih =>
    intro opts m
    rw [List.foldl_cons, List.foldl_cons, List.filterMap_cons]
    by_cases hopt : RobustQuizGenerator.optLine line
    · simp only [hopt, if_pos, ite_true]
      rw [ih]
      simp
    · by_cases hmark : RobustQuizGenerator.markerLine line
      · simp only [hopt, hmark, ite_false, ite_true, Bool.false_eq_true, if_false]
        rw [ih]
      · simp only [hopt, hmark, Bool.false_eq_true, if_false]
        rw [ih]

theorem scanLines_components (rest : List Str) :
    RobustQuizGenerator.scanLines rest =
      (rest.filterMap (fun line =>
         if RobustQuizGenerator.optLine line then some (trimCL (line.drop 2)) else none),
       RobustQuizGenerator.lastMarker rest) := by
  unfold RobustQuizGenerator.scanLines RobustQuizGenerator.lastMarker
  rw [scanLines_foldl_spec]
  simp

theorem length_filterMap_guard {α β : Type} (p : α → Bool) (f : α → β) (l : List α) :
    (l.filterMap fun a => if p a then some (f a) else none).length = l.countP p := by
  induction l with
  | nil => simp
  | cons a l ih =>
    rw [List.filterMap_cons, List.countP_cons]
    by_cases hp : p a
    · simp [hp, ih]
    · simp [hp, ih]

theorem trimCL_of_all_ws {l : Str} (h : ∀ c ∈ l, c.isWhitespace) : trimCL l = [] := by
  unfold trimCL
  have h1 : l.dropWhile Char.isWhitespace = [] :=
    List.dropWhile_eq_nil_iff.mpr fun x hx => h x hx
  rw [h1]
  rfl

theorem all_ws_of_trimCL_eq_nil {l : Str} (h : trimCL l = []) : ∀ c ∈ l, c.isWhitespace := by
  unfold trimCL at h
  rw [List.reverse_eq_nil_iff, List.dropWhile_eq_nil_iff] at h
  intro c hc
  rcases List.mem_append.mp
      ((List.takeWhile_append_dropWhile (p := Char.isWhitespace) (l := l)) ▸ hc) with h1 | h2
  · exact List.mem_takeWhile_imp h1
  · exact h c (List.mem_reverse.mpr h2)

theorem mem_of_mem_splitOnGo (sep : Str) : ∀ (fuel : Nat) (l piece : Str),
    piece ∈ splitOnGo sep fuel l → ∀ c ∈ piece, c ∈ l := by
  intro fuel
  induction fuel with
  | zero =>
    intro l piece h c hc
    simp only [splitOnGo, List.mem_singleton] at h
    exact h ▸ hc
  | succ f ih =>
    intro l piece h c hc
    cases l with
    | nil =>
      simp only [splitOnGo, List.mem_singleton] at h
      subst h
      cases hc
    | cons a as =>
      rw [splitOnGo] at h
      by_cases hpre : startsWithCL sep (a :: as)
      · rw [if_pos hpre] at h
        rcases List.mem_cons.mp h with rfl | h'
        · cases hc
        · exact List.drop_subset _ _ (ih _ _ h' c hc)
      · rw [if_neg hpre] at h
        cases hrec : splitOnGo sep f as with
        | nil =>
          rw [hrec] at h
          simp only [List.mem_singleton] at h
          subst h
          rcases List.mem_singleton.mp hc with rfl
          exact List.mem_cons_self _ _
        | cons h0 t0 =>
          rw [hrec] at h
          rcases List.mem_cons.mp h with rfl | h'
          · rcases List.mem_cons.mp hc with rfl | hc'
            · exact List.mem_cons_self _ _
            · exact List.mem_cons_of_mem _
                (ih as h0 (hrec ▸ List.mem_cons_self _ _) c hc')
          · exact List.mem_cons_of_mem _
              (ih as piece (hrec ▸ List.mem_cons_of_mem _ h') c hc)

theorem trim_ne_of_blockLines_ne {block : Str}
    (h : RobustQuizGenerator.blockLines block ≠ []) : trimCL block ≠ [] := by
  intro htrim
  apply h
  unfold RobustQuizGenerator.blockLines
  rw [List.filter_eq_nil_iff]
  intro line hline
  obtain ⟨piece, hpiece, rfl⟩ := List.mem_map.mp hline
  have hallws : ∀ c ∈ piece, c.isWhitespace := fun c hc =>
    all_ws_of_trimCL_eq_nil htrim c (mem_of_mem_splitOnGo _ _ _ _ hpiece c hc)
  simp [trimCL_of_all_ws hallws]

/-- Acceptance condition exactly as the claim words it: at least 6
non-empty trimmed lines, exactly 4 recognized option-prefix lines after
the first, and a correct-answer marker line present. -/
def claimedParserAccept (block : Str) : Bool :=
  let lines := RobustQuizGenerator.blockLines block
  decide (6 ≤ lines.length) &&
  ((lines.drop 1).countP RobustQuizGenerator.optLine == 4) &&
  (lines.drop 1).any RobustQuizGenerator.markerLine

/-- C8 (amended): a block is accepted iff it has at least 6 non-empty
trimmed lines, exactly 4 option-prefix lines after the first, and the
letter token extracted from the *last* correct-answer marker line is
non-empty — finding the marker line alone is not enough, because an
empty token after the colon is falsy and rejects the block.  Accepted
blocks always carry an index at most 3, the letter map sends A,B,C,D to
0,1,2,3, and a non-empty unrecognized letter defaults to 0. -/
theorem claim8_amended (block : Str) :
    ((RobustQuizGenerator.parseBlock block).isSome = true ↔
      (6 ≤ (RobustQuizGenerator.blockLines block).length ∧
       ((RobustQuizGenerator.blockLines block).drop 1).countP RobustQuizGenerator.optLine = 4 ∧
       (RobustQuizGenerator.lastMarker
          ((RobustQuizGenerator.blockLines block).drop 1)).getD [] ≠ []))
    ∧ (∀ q : Question, RobustQuizGenerator.parseBlock block = some q → q.correct_answer ≤ 3)
    ∧ RobustQuizGenerator.letterToIndex (str "A") = 0
    ∧ RobustQuizGenerator.letterToIndex (str "B") = 1
    ∧ RobustQuizGenerator.letterToIndex (str "C") = 2
    ∧ RobustQuizGenerator.letterToIndex (str "D") = 3
    ∧ RobustQuizGenerator.letterToIndex (str "E") = 0 := by
  have hidx : ∀ s : Str, RobustQuizGenerator.letterToIndex s ≤ 3 := by
    intro s
    unfold RobustQuizGenerator.letterToIndex
    split_ifs <;> omega
  have hpb : RobustQuizGenerator.parseBlock block =
      if trimCL block = [] then none
      else if (RobustQuizGenerator.blockLines block).length < 6 then none
      else if ((RobustQuizGenerator.blockLines block).drop 1).countP
                RobustQuizGenerator.optLine = 4 ∧
              (RobustQuizGenerator.lastMarker
                ((RobustQuizGenerator.blockLines block).drop 1)).getD [] ≠ [] then
        some ⟨trimCL (((RobustQuizGenerator.blockLines block).getD 0 []).filter
                fun c => c ≠ ':'),
              ((RobustQuizGenerator.blockLines block).drop 1).filterMap fun line =>
                if RobustQuizGenerator.optLine line then some (trimCL (line.drop 2)) else none,
              RobustQuizGenerator.letterToIndex ((RobustQuizGenerator.lastMarker
                ((RobustQuizGenerator.blockLines block).drop 1)).getD [])⟩
      else none := by
    simp only [RobustQuizGenerator.parseBlock, scanLines_components, length_filterMap_guard]
  refine ⟨?_, ?_, by decide, by decide, by decide, by decide, by decide⟩
  · rw [hpb]
    constructor
    · intro h
      split_ifs at h with h1 h2 h3
      · cases h
      · cases h
      · exact ⟨by omega, h3.1, h3.2⟩
      · cases h
    · rintro ⟨h6, hcount, htoken⟩
      have hne : RobustQuizGenerator.blockLines block ≠ [] := by
        intro hnil
        rw [hnil] at h6
        simp at h6
      rw [if_neg (trim_ne_of_blockLines_ne hne), if_neg (by omega)]
      rw [if_pos ⟨hcount, htoken⟩]
      rfl
  · intro q hq
    rw [hpb] at hq
    split_ifs at hq with h1 h2 h3
    obtain rfl := Option.some.inj hq
    exact hidx _

/-- C8 witness: a concrete block with an unrecognized non-empty letter
(`E`) is accepted with default index 0. -/
theorem claim8_witness :
    (RobustQuizGenerator.parseBlock
      (str " 1: Q\nA) a\nB) b\nC) c\nD) d\nТочен одговор: E")).isSome = true :=
  (claim8_amended (str " 1: Q\nA) a\nB) b\nC) c\nD) d\nТочен одговор: E")).1.mpr
    (by refine ⟨by decide, by decide, by decide⟩)

/-- C8 counterexample: a block satisfying the claim's acceptance
condition (6 lines, 4 option lines, marker line present) whose marker
line carries no letter after the colon — the claim says the block is
accepted with default index 0, but the code rejects it because the empty
extracted token is falsy. -/
theorem claim8_counterexample :
    claimedParserAccept (str " 1: Q\nA) a\nB) b\nC) c\nD) d\nТочен одговор:") = true
    ∧ RobustQuizGenerator.parseBlock (str " 1: Q\nA) a\nB) b\nC) c\nD) d\nТочен одговор:") = none
    ∧ RobustQuizGenerator.parse_questions
        (str "Прашање 1: Q\nA) a\nB) b\nC) c\nD) d\nТочен одговор:") = [] := by
  refine ⟨by decide, by decide, by decide⟩

/-! Claim C1: the QuestionRecord invariants. -/

namespace RobustQuizGenerator

/-- The options list `generate_realistic_options` assembles before the
shuffle: the designated correct answer followed by the first three wrong
options. -/
def preOptions (concept : Str) (pool : List Str) : List Str :=
  match physics_knowledge.lookup (lowerCL concept) with
  | some knowledge =>
    let other_concepts := pool.filter fun c => lowerCL c != lowerCL concept
    let fromOthers := (other_concepts.take 2).filterMap fun oc =>
      (physics_knowledge.lookup (lowerCL oc)).map fun k => k.definition
    knowledge.definition ::
      (fromOthers ++ [gWrong1 concept, gWrong2 concept, gWrong3 concept]).take 3
  | none =>
    (concept ++ str " е важен концепт во физиката") ::
      [concept ++ str " не е физички концепт",
       concept ++ str " се користи во други науки",
       concept ++ str " нема физичко значење"].take 3

theorem generate_realistic_options_eq (shuffle : List Str → List Str) (concept : Str)
    (pool : List Str) :
    generate_realistic_options shuffle concept pool =
      (shuffle (preOptions concept pool),
       indexOfCL (correctAnswerOf concept) (shuffle (preOptions concept pool))) := by
  simp only [generate_realistic_options, preOptions, correctAnswerOf]
  cases physics_knowledge.lookup (lowerCL concept) <;> rfl

theorem physics_defs_nodup :
    (physics_knowledge.map fun p => p.2.definition).Nodup := by decide

theorem defs_no_g1_prefix :
    ∀ p ∈ physics_knowledge, ¬ (str "Ова не е точна дефиниција за " <+: p.2.definition) := by
  decide

theorem defs_no_g3_prefix :
    ∀ p ∈ physics_knowledge, ¬ (str "Ова не одговара на " <+: p.2.definition) := by
  decide

theorem defs_no_g2_suffix :
    ∀ p ∈ physics_knowledge, ¬ (str " се дефинира поинаку" <:+ p.2.definition) := by
  decide

theorem gWrong1_ne_gWrong2 (c : Str) : gWrong1 c ≠ gWrong2 c := by
  intro h
  have hl := congrArg List.length h
  rw [gWrong1, gWrong2, List.length_append, List.length_append,
    show (str "Ова не е точна дефиниција за ").length = 29 from rfl,
    show (str " се дефинира поинаку").length = 20 from rfl] at hl
  omega

theorem gWrong1_ne_gWrong3 (c : Str) : gWrong1 c ≠ gWrong3 c := by
  intro h
  have hl := congrArg List.length h
  rw [gWrong1, gWrong3, List.length_append, List.length_append,
    show (str "Ова не е точна дефиниција за ").length = 29 from rfl,
    show (str "Ова не одговара на ").length = 19 from rfl] at hl
  omega

theorem gWrong2_ne_gWrong3 (c : Str) : gWrong2 c ≠ gWrong3 c := by
  intro h
  have hl := congrArg List.length h
  rw [gWrong2, gWrong3, List.length_append, List.length_append,
    show (str " се дефинира поинаку").length = 20 from rfl,
    show (str "Ова не одговара на ").length = 19 from rfl] at hl
  omega

theorem def_ne_gWrong1 {p : Str × Knowledge} (hp : p ∈ physics_knowledge) (c : Str) :
    p.2.definition ≠ gWrong1 c :=
  fun h => defs_no_g1_prefix p hp ⟨c, h.symm⟩

theorem def_ne_gWrong2 {p : Str × Knowledge} (hp : p ∈ physics_knowledge) (c : Str) :
    p.2.definition ≠ gWrong2 c :=
  fun h => defs_no_g2_suffix p hp ⟨c, h.symm⟩

theorem def_ne_gWrong3 {p : Str × Knowledge} (hp : p ∈ physics_knowledge) (c : Str) :
    p.2.definition ≠ gWrong3 c :=
  fun h => defs_no_g3_prefix p hp ⟨c, h.symm⟩

theorem lookup_def_inj {k1 k2 : Str} {v1 v2 : Knowledge}
    (h1 : physics_knowledge.lookup k1 = some v1)
    (h2 : physics_knowledge.lookup k2 = some v2)
    (hd : v1.definition = v2.definition) : k1 = k2 := by
  have m1 := lookup_mem h1
  have m2 := lookup_mem h2
  have h := List.inj_on_of_nodup_map physics_defs_nodup m1 m2 hd
  exact congrArg Prod.fst h

/-- The assembled options are four pairwise-distinct strings headed by
the designated correct answer, provided the concept pool has
pairwise-distinct lowercasings (which rules out the same dictionary
definition being borrowed twice as a distractor). -/
theorem preOptions_props (concept : Str) (pool : List Str)
    (hpool : (pool.map lowerCL).Nodup) :
    (preOptions concept pool).length = 4 ∧ (preOptions concept pool).Nodup ∧
    correctAnswerOf concept ∈ preOptions concept pool := by
  simp only [preOptions, correctAnswerOf]
  cases hlk : physics_knowledge.lookup (lowerCL concept) with
  | none =>
    refine ⟨rfl, ?_, List.mem_cons_self _ _⟩
    have hne : ∀ s t : Str, s ≠ t → concept ++ s ≠ concept ++ t :=
      fun s t hst h => hst (List.append_cancel_left h)
    have e01 := hne (str " е важен концепт во физиката") (str " не е физички концепт") (by decide)
    have e02 := hne (str " е важен концепт во физиката") (str " се користи во други науки") (by decide)
    have e03 := hne (str " е важен концепт во физиката") (str " нема физичко значење") (by decide)
    have e12 := hne (str " не е физички концепт") (str " се користи во други науки") (by decide)
    have e13 := hne (str " не е физички концепт") (str " нема физичко значење") (by decide)
    have e23 := hne (str " се користи во други науки") (str " нема физичко значење") (by decide)
    simp [List.nodup_cons, e01, e02, e03, e12, e13, e23]
  | some kn =>
    have hkmem : (lowerCL concept, kn) ∈ physics_knowledge := lookup_mem hlk
    set others := pool.filter (fun c => lowerCL c != lowerCL concept) with hothers
    have hother_ne : ∀ oc ∈ others.take 2, lowerCL oc ≠ lowerCL concept := by
      intro oc hoc
      have h' := (List.mem_filter.mp (hothers ▸ List.mem_of_mem_take hoc)).2
      simpa [bne_iff_ne] using h'
    have htake_nd : ((others.take 2).map lowerCL).Nodup := by
      have h1 : others.Sublist pool := hothers ▸ List.filter_sublist pool
      have h2 : (others.take 2).Sublist pool := (List.take_sublist _ _).trans h1
      exact hpool.sublist (h2.map lowerCL)
    have hg12 := gWrong1_ne_gWrong2 concept
    have hg13 := gWrong1_ne_gWrong3 concept
    have hg23 := gWrong2_ne_gWrong3 concept
    have hd1 := def_ne_gWrong1 hkmem concept
    have hd2 := def_ne_gWrong2 hkmem concept
    have hd3 := def_ne_gWrong3 hkmem concept
    rcases h2 : others.take 2 with _ | ⟨a, _ | ⟨b, tl2⟩⟩
    · simp only [List.filterMap_nil, List.nil_append, List.take_succ_cons, List.take_zero]
      refine ⟨rfl, ?_, List.mem_cons_self _ _⟩
      simp [List.nodup_cons, hd1, hd2, hd3, hg12, hg13, hg23]
    · have ha_ne := hother_ne a (h2 ▸ List.mem_cons_self _ _)
      cases hla : physics_knowledge.lookup (lowerCL a) with
      | none =>
        simp only [List.filterMap_cons, hla, Option.map_none', List.filterMap_nil,
          List.nil_append, List.take_succ_cons, List.take_zero]
        refine ⟨rfl, ?_, List.mem_cons_self _ _⟩
        simp [List.nodup_cons, hd1, hd2, hd3, hg12, hg13, hg23]
      | some ka =>
        have hamem : (lowerCL a, ka) ∈ physics_knowledge := lookup_mem hla
        have hdka : kn.definition ≠ ka.definition := fun h =>
          ha_ne (lookup_def_inj hla hlk h.symm)
        have hka1 := def_ne_gWrong1 hamem concept
        have hka2 := def_ne_gWrong2 hamem concept
        simp only [List.filterMap_cons, hla, Option.map_some', List.filterMap_nil,
          List.cons_append, List.nil_append, List.take_succ_cons, List.take_zero]
        refine ⟨rfl, ?_, List.mem_cons_self _ _⟩
        simp [List.nodup_cons, hdka, hd1, hd2, hka1, hka2, hg12]
    · have htl : tl2 = [] := by
        have hlen := List.length_take_le 2 others
        rw [h2] at hlen
        simp only [List.length_cons] at hlen
        exact List.length_eq_zero.mp (by omega)
      subst htl
      have ha_ne := hother_ne a (h2 ▸ List.mem_cons_self _ _)
      have hb_ne := hother_ne b (h2 ▸ List.mem_cons_of_mem _ (List.mem_cons_self _ _))
      have hab : lowerCL a ≠ lowerCL b := by
        rw [h2] at htake_nd
        simp only [List.map_cons, List.map_nil, List.nodup_cons, List.mem_singleton,
          List.not_mem_nil, not_false_iff, and_true] at htake_nd
        exact htake_nd.1
      cases hla : physics_knowledge.lookup (lowerCL a) with
      | none =>
        cases hlb : physics_knowledge.lookup (lowerCL b) with
        | none =>
          simp only [List.filterMap_cons, hla, hlb, Option.map_none', List.filterMap_nil,
            List.nil_append, List.take_succ_cons, List.take_zero]
          refine ⟨rfl, ?_, List.mem_cons_self _ _⟩
          simp [List.nodup_cons, hd1, hd2, hd3, hg12, hg13, hg23]
        | some kb =>
          have hbmem : (lowerCL b, kb) ∈ physics_knowledge := lookup_mem hlb
          have hdkb : kn.definition ≠ kb.definition := fun h =>
            hb_ne (lookup_def_inj hlb hlk h.symm)
          have hkb1 := def_ne_gWrong1 hbmem concept
          have hkb2 := def_ne_gWrong2 hbmem concept
          simp only [List.filterMap_cons, hla, hlb, Option.map_none', Option.map_some',
            List.filterMap_nil, List.cons_append, List.nil_append, List.take_succ_cons,
            List.take_zero]
          refine ⟨rfl, ?_, List.mem_cons_self _ _⟩
          simp [List.nodup_cons, hdkb, hd1, hd2, hkb1, hkb2, hg12]
      | some ka =>
        have hamem : (lowerCL a, ka) ∈ physics_knowledge := lookup_mem hla
        have hdka : kn.definition ≠ ka.definition := fun h =>
          ha_ne (lookup_def_inj hla hlk h.symm)
        have hka1 := def_ne_gWrong1 hamem concept
        have hka2 := def_ne_gWrong2 hamem concept
        cases hlb : physics_knowledge.lookup (lowerCL b) with
        | none =>
          simp only [List.filterMap_cons, hla, hlb, Option.map_none', Option.map_some',
            List.filterMap_nil, List.cons_append, List.nil_append, List.take_succ_cons,
            List.take_zero]
          refine ⟨rfl, ?_, List.mem_cons_self _ _⟩
          simp [List.nodup_cons, hdka, hd1, hd2, hka1, hka2, hg12]
        | some kb =>
          have hbmem : (lowerCL b, kb) ∈ physics_knowledge := lookup_mem hlb
          have hdkb : kn.definition ≠ kb.definition := fun h =>
            hb_ne (lookup_def_inj hlb hlk h.symm)
          have hkab : ka.definition ≠ kb.definition := fun h =>
            hab (lookup_def_inj hla hlb h)
          have hkb1 := def_ne_gWrong1 hbmem concept
          have hka1 := def_ne_gWrong1 hamem concept
          simp only [List.filterMap_cons, hla, hlb, Option.map_some', List.filterMap_nil,
            List.cons_append, List.nil_append, List.take_succ_cons, List.take_zero]
          refine ⟨rfl, ?_, List.mem_cons_self _ _⟩
          simp [List.nodup_cons, hdka, hdkb, hd1, hkab, hka1, hkb1]

/-- Shape facts about every question the parser accepts: 4 options and
an index within 0..3. -/
theorem parseBlock_shape {block : Str} {q : Question}
    (h : parseBlock block = some q) :
    q.options.length = 4 ∧ q.correct_answer ≤ 3 := by
  have hidx : ∀ s : Str, letterToIndex s ≤ 3 := by
    intro s
    unfold letterToIndex
    split_ifs <;> omega
  simp only [parseBlock] at h
  split_ifs at h with h1 h2 h3
  obtain rfl := Option.some.inj h
  exact ⟨h3.1, hidx _⟩

end RobustQuizGenerator

/-- C1 (amended): on the robust generator's local option-assembly path
every produced record satisfies the full invariant — 4 options, pairwise
distinct, index in 0..3, and the option at the index is exactly the
pre-shuffle correct answer — for every permutation the shuffle may apply
and every concept pool whose lowercasings are pairwise distinct (which
`clean_and_extract_concepts` output always satisfies); on the
remote-reply parsing path only the shape half holds: 4 options and index
in 0..3, with no distinctness guarantee (see the counterexample). -/
theorem claim1_amended (shuffle : List Str → List Str)
    (hshuffle : ∀ l : List Str, (shuffle l).Perm l)
    (concept : Str) (pool : List Str)
    (hpool : (pool.map lowerCL).Nodup) :
    ((RobustQuizGenerator.generate_realistic_options shuffle concept pool).1.length = 4 ∧
     (RobustQuizGenerator.generate_realistic_options shuffle concept pool).1.Nodup ∧
     (RobustQuizGenerator.generate_realistic_options shuffle concept pool).2 < 4 ∧
     (RobustQuizGenerator.generate_realistic_options shuffle concept pool).1.getD
        (RobustQuizGenerator.generate_realistic_options shuffle concept pool).2 [] =
       RobustQuizGenerator.correctAnswerOf concept) ∧
    (∀ reply : Str, ∀ q ∈ RobustQuizGenerator.parse_questions reply,
       q.options.length = 4 ∧ q.correct_answer ≤ 3) := by
  obtain ⟨hlen, hnd, hmem⟩ := RobustQuizGenerator.preOptions_props concept pool hpool
  have hperm := hshuffle (RobustQuizGenerator.preOptions concept pool)
  rw [RobustQuizGenerator.generate_realistic_options_eq]
  have hmem' : RobustQuizGenerator.correctAnswerOf concept ∈
      shuffle (RobustQuizGenerator.preOptions concept pool) := hperm.mem_iff.mpr hmem
  have hlen' : (shuffle (RobustQuizGenerator.preOptions concept pool)).length = 4 :=
    hperm.length_eq.trans hlen
  have hidx := indexOfCL_lt_length hmem'
  refine ⟨⟨hlen', hperm.nodup_iff.mpr hnd, by omega, getD_indexOfCL hmem'⟩, ?_⟩
  intro reply q hq
  obtain ⟨block, _, hparse⟩ := List.mem_filterMap.mp hq
  exact RobustQuizGenerator.parseBlock_shape hparse

/-- C1 witness: the invariant instantiated with the identity shuffle,
the concept Сила and the pool [Сила, Маса]. -/
theorem claim1_witness :
    (RobustQuizGenerator.generate_realistic_options id (str "Сила")
      [str "Сила", str "Маса"]).1.length = 4 ∧
    (RobustQuizGenerator.generate_realistic_options id (str "Сила")
      [str "Сила", str "Маса"]).1.Nodup ∧
    (RobustQuizGenerator.generate_realistic_options id (str "Сила")
      [str "Сила", str "Маса"]).2 < 4 ∧
    (RobustQuizGenerator.generate_realistic_options id (str "Сила")
      [str "Сила", str "Маса"]).1.getD
      (RobustQuizGenerator.generate_realistic_options id (str "Сила")
        [str "Сила", str "Маса"]).2 [] =
      RobustQuizGenerator.correctAnswerOf (str "Сила") :=
  (claim1_amended id (fun l => List.Perm.refl l) (str "Сила") [str "Сила", str "Маса"]
    (by decide)).1

/-- C1 counterexample: a remote reply whose four option lines are all
the same string parses into a QuestionRecord with non-distinct options,
so the pairwise-distinctness part of the claim fails on the remote-reply
parsing path. -/
theorem claim1_counterexample :
    RobustQuizGenerator.parse_questions
        (str "Прашање 1: Q\nA) x\nB) x\nC) x\nD) x\nТочен одговор: A") =
      [⟨str "1 Q", [str "x", str "x", str "x", str "x"], 0⟩]
    ∧ ¬ ([str "x", str "x", str "x", str "x"] : List Str).Nodup := by
  refine ⟨by decide, by decide⟩

end SkoloKviz
